import Mathlib

/-!
Verification development for the ralph-loop repository.

The Python sources are shallowly embedded: each Lean definition translates
one Python function or method, keeping its name where Lean allows.
Python `str` values are modelled by Lean `String` (a wrapper around
`List Char`), and the `str` methods in play are re-implemented below over
the character list so that concrete evaluations reduce in the kernel.
The inputs in scope are ASCII, `\n`-separated text, for which these models
agree with CPython's behaviour.
-/

set_option maxRecDepth 10000

/-! ## Python string primitives -/

/-- Characters stripped by Python `str.strip()` (ASCII whitespace). -/
def pyIsSpace (c : Char) : Bool :=
  c == ' ' || c == '\t' || c == '\n' || c == '\r' || c == '\x0b' || c == '\x0c'

/-- Python `s.strip()` (strip ASCII whitespace from both ends). -/
def pyStrip (s : String) : String :=
  ⟨((s.data.dropWhile pyIsSpace).reverse.dropWhile pyIsSpace).reverse⟩

/-- Python `s.rstrip(c)` for a single strip character `c`. -/
def pyRstripChar (c : Char) (s : String) : String :=
  ⟨(s.data.reverse.dropWhile (· == c)).reverse⟩

/-- Python `s.lower()` (ASCII case folding). -/
def pyLower (s : String) : String :=
  ⟨s.data.map Char.toLower⟩

/-- Python `s.startswith(pre)`. -/
def pyStartswith (s pre : String) : Bool :=
  pre.data.isPrefixOf s.data

/-- Python `s.endswith(suf)`. -/
def pyEndswith (s suf : String) : Bool :=
  suf.data.isSuffixOf s.data

def listSub (pat : List Char) : List Char → Bool
  | [] => pat.isEmpty
  | c :: rest => pat.isPrefixOf (c :: rest) || listSub pat rest

/-- Python `needle in hay` (substring containment). -/
def pyIn (needle hay : String) : Bool :=
  listSub needle.data hay.data

/-- Python truthiness of a string: non-empty. -/
def pyTruthy (s : String) : Bool :=
  s != ""

def splitLinesAux : List Char → List Char → List (List Char)
  | [], acc => [acc.reverse]
  | c :: rest, acc =>
    if c == '\n' then acc.reverse :: splitLinesAux rest []
    else splitLinesAux rest (c :: acc)

/-- Python `s.splitlines()` for `\n`-separated text: no entry is produced
for a trailing newline, and the empty string yields no lines. -/
def pySplitlines (s : String) : List String :=
  if s.data.isEmpty then []
  else
    let parts := (splitLinesAux s.data []).map (fun cs => (⟨cs⟩ : String))
    if s.data.getLast? == some '\n' then parts.dropLast else parts

/-! ## guards.py -/

/-- Translation of `guards.path_is_allowed`: an allow entry ending in `/`
is a directory prefix (also matching the bare directory name); any other
entry must match the path exactly. -/
def path_is_allowed (path : String) (allowed_paths : List String) : Bool :=
  allowed_paths.any fun allowed =>
    if pyEndswith allowed "/" then
      pyStartswith path allowed || (path ++ "/") == allowed
    else
      path == allowed

/-- Translation of `guards.check_violations`: empty allow-list reports no
violations; otherwise the disallowed members of the (sorted) changed set. -/
def check_violations (changed_files : List String) (allowed_paths : List String) :
    List String :=
  if allowed_paths.isEmpty then []
  else
    (changed_files.mergeSort (fun a b => a ≤ b)).filter
      (fun f => !path_is_allowed f allowed_paths)

/-- Translation of the decision logic of `guards.enforce_allowed_paths`.
The UI rendering calls are dropped; the git working tree is supplied as the
list of changed files, and the human arbitration as the selected choice
index (0 = quit, 1 = revert and continue, 2 = continue anyway). -/
def enforce_allowed_paths (allowed_paths : List String) (interactive : Bool)
    (is_repo : Bool) (changed : List String) (can_prompt : Bool)
    (choice : Nat) : Bool × List String :=
  if allowed_paths.isEmpty then (true, [])
  else if !is_repo then (true, [])
  else
    let violations := check_violations changed allowed_paths
    if violations.isEmpty then (true, [])
    else if !interactive then (false, violations)
    else if !can_prompt then (false, violations)
    else if choice == 0 then (false, violations)
    else if choice == 1 then (true, [])
    else (true, violations)

/-! ## prd.py

JSON documents are modelled by the `Json` inductive below (the PRD schema
uses no floating-point numbers, so number values are integers).  A Python
`dict` obtained from `json.load` is an association list with distinct keys.
Python's `bool` is a subclass of `int`, so the model of `isinstance(x, int)`
accepts booleans as well.
-/

inductive Json where
  | str : String → Json
  | int : Int → Json
  | bool : Bool → Json
  | null : Json
  | arr : List Json → Json
  | obj : List (String × Json) → Json

/-- Python `dict.get` / `dict[...]` on a parsed JSON object. -/
def jlookup (k : String) : List (String × Json) → Option Json
  | [] => none
  | (k₁, v) :: rest => if k₁ == k then some v else jlookup k rest

/-- `isinstance(x, str)`. -/
def Json.isStr : Json → Bool
  | .str _ => true
  | _ => false

/-- `isinstance(x, int)`.  Python booleans are `int` instances. -/
def Json.isInt : Json → Bool
  | .int _ => true
  | .bool _ => true
  | _ => false

/-- `isinstance(x, bool)`. -/
def Json.isBool : Json → Bool
  | .bool _ => true
  | _ => false

/-- `isinstance(x, list)`. -/
def Json.isList : Json → Bool
  | .arr _ => true
  | _ => false

/-- Python `set(ks) == set(expected)` for dict key lists. -/
def keySetEq (ks expected : List String) : Bool :=
  ks.all (expected.contains ·) && expected.all (ks.contains ·)

structure UserStory where
  id : String
  title : String
  acceptance_criteria : List String
  priority : Int
  passes : Bool
  notes : String
deriving DecidableEq, Repr

structure PRD where
  branch_name : String
  user_stories : List UserStory
deriving DecidableEq, Repr

/-- Translation of the per-story checks of `PRD.validate_schema` (the loop
body over `userStories`); error strings are abbreviated but produced under
exactly the source's conditions. -/
def validateStory (i : Nat) (story : Json) : List String :=
  let pre := "userStories[" ++ toString i ++ "]"
  match story with
  | .obj kvs =>
    let ks := kvs.map Prod.fst
    if !keySetEq ks ["id", "title", "acceptanceCriteria", "priority", "passes", "notes"] then
      [pre ++ ": key set mismatch"]
    else
      (if !(jlookup "id" kvs).any Json.isStr then [pre ++ ".id: must be a string"] else []) ++
      (if !(jlookup "title" kvs).any Json.isStr then [pre ++ ".title: must be a string"] else []) ++
      (match jlookup "acceptanceCriteria" kvs with
       | some (.arr cs) =>
         if !cs.all Json.isStr then [pre ++ ".acceptanceCriteria: all items must be strings"]
         else []
       | _ => [pre ++ ".acceptanceCriteria: must be an array"]) ++
      (if !(jlookup "priority" kvs).any Json.isInt then [pre ++ ".priority: must be an integer"] else []) ++
      (if !(jlookup "passes" kvs).any Json.isBool then [pre ++ ".passes: must be a boolean"] else []) ++
      (if !(jlookup "notes" kvs).any Json.isStr then [pre ++ ".notes: must be a string"] else [])
  | _ => [pre ++ ": must be an object"]

def validateStories (i : Nat) : List Json → List String
  | [] => []
  | s :: rest => validateStory i s ++ validateStories (i + 1) rest

/-- Translation of `PRD.validate_schema`: exactly the top-level keys
`branchName` and `userStories`, a non-empty string branch name, and an
array of stories each validated by `validateStory`. -/
def PRD.validate_schema (data : Json) : List String :=
  match data with
  | .obj kvs =>
    let ks := kvs.map Prod.fst
    if !keySetEq ks ["branchName", "userStories"] then
      ["top-level key set mismatch"]
    else
      let branchErrs :=
        match jlookup "branchName" kvs with
        | some (.str s) => if s == "" then ["branchName must be non-empty"] else []
        | _ => ["branchName must be a string"]
      match jlookup "userStories" kvs with
      | some (.arr stories) => branchErrs ++ validateStories 0 stories
      | _ => branchErrs ++ ["userStories must be an array"]
  | _ => ["PRD must be a JSON object"]

/-- Field extraction used by `PRD.load` after validation has succeeded; the
fallback arms are unreachable for documents that pass `validate_schema`
(in Python they would raise `KeyError`/never run). -/
def storyOfJson (story : Json) : UserStory :=
  match story with
  | .obj kvs =>
    { id := match jlookup "id" kvs with | some (.str s) => s | _ => ""
      title := match jlookup "title" kvs with | some (.str s) => s | _ => ""
      acceptance_criteria :=
        match jlookup "acceptanceCriteria" kvs with
        | some (.arr cs) => cs.map (fun c => match c with | .str s => s | _ => "")
        | _ => []
      priority :=
        match jlookup "priority" kvs with
        | some (.int n) => n
        | some (.bool b) => if b then 1 else 0
        | _ => 0
      passes := match jlookup "passes" kvs with | some (.bool b) => b | _ => false
      notes := match jlookup "notes" kvs with | some (.str s) => s | _ => "" }
  | _ => default_story
where
  default_story : UserStory :=
    { id := "", title := "", acceptance_criteria := [], priority := 0,
      passes := false, notes := "" }

/-- Translation of `PRD.load` applied to the parsed JSON value of the file:
validate the schema, then build the `PRD` from the document's fields. -/
def PRD.load_json (data : Json) : Except String PRD :=
  let errors := PRD.validate_schema data
  if !errors.isEmpty then .error ("Invalid PRD schema: " ++ String.intercalate "; " errors)
  else
    match data with
    | .obj kvs =>
      let stories :=
        match jlookup "userStories" kvs with
        | some (.arr ss) => ss.map storyOfJson
        | _ => []
      let branch :=
        match jlookup "branchName" kvs with
        | some (.str s) => s
        | _ => ""
      .ok { branch_name := branch, user_stories := stories }
    | _ => .error "unreachable"

/-- The JSON value written by `PRD.save` (the file serialisation
`json.dump` / `json.load` is the identity on JSON values). -/
def storyToJson (s : UserStory) : Json :=
  .obj [("id", .str s.id), ("title", .str s.title),
        ("acceptanceCriteria", .arr (s.acceptance_criteria.map .str)),
        ("priority", .int s.priority), ("passes", .bool s.passes),
        ("notes", .str s.notes)]

/-- Translation of `PRD.save`: the `data` dictionary passed to `json.dump`. -/
def PRD.save_json (p : PRD) : Json :=
  .obj [("branchName", .str p.branch_name),
        ("userStories", .arr (p.user_stories.map storyToJson))]

/-! ## ui/codex_transcript.py -/

structure TranscriptLine where
  tag : String
  text : String
deriving DecidableEq, Repr

/-- The mutable state of `CodexTranscriptParser`.  The constructor
arguments `show_prompt` and the prompt file content become the fields
below; `prompt_progress_every` is clamped with `max(·, 0)`. -/
structure ParserState where
  role : String
  show_prompt : Bool
  prompt_progress_every : Nat
  prompt_lines : List String
  prompt_src : String
  prompt_hide_active : Bool
  prompt_i : Nat
  hidden_prompt_lines : Nat
  prompt_header_printed : Bool
  prompt_summary_printed : Bool
deriving DecidableEq, Repr

/-- `CodexTranscriptParser.__init__`: `prompt_text` is the content of the
prompt file when it exists (`none` models a missing or unset file). -/
def initParser (prompt_file_text : Option String) (prompt_src : String)
    (show_prompt : Bool) (prompt_progress_every : Int) : ParserState :=
  let lines := match prompt_file_text with
    | some t => pySplitlines t
    | none => []
  { role := "SYS"
    show_prompt := show_prompt
    prompt_progress_every := (max prompt_progress_every 0).toNat
    prompt_lines := lines
    prompt_src := prompt_src
    prompt_hide_active := !lines.isEmpty && !show_prompt
    prompt_i := 0
    hidden_prompt_lines := 0
    prompt_header_printed := false
    prompt_summary_printed := false }

/-- `line.rstrip("\r")` in `feed`. -/
def cleanLine (line : String) : String :=
  pyRstripChar '\x0d' line

/-- `clean_line.strip().rstrip(":").lower()` in `feed`. -/
def markerOf (line : String) : String :=
  pyLower (pyRstripChar ':' (pyStrip (cleanLine line)))

/-- The one-time "[prompt hidden: src]" marker line. -/
def promptHeaderLine (st : ParserState) : TranscriptLine :=
  ⟨"PROMPT", "[prompt hidden: " ++ st.prompt_src ++ "]"⟩

/-- The "N lines suppressed" marker line for `n` hidden lines. -/
def promptSuppressedLine (st : ParserState) (n : Nat) : TranscriptLine :=
  ⟨"PROMPT", "[prompt hidden: " ++ st.prompt_src ++ " - " ++ toString n ++
    " lines suppressed]"⟩

/-- The disclosure note emitted when the echo diverges from the prompt. -/
def promptDivergedLine (st : ParserState) : TranscriptLine :=
  ⟨"SYS", "[prompt hiding disabled: output diverged from " ++ st.prompt_src ++ "]"⟩

/-- `CodexTranscriptParser._reset_prompt_state`. -/
def resetPromptState (st : ParserState) : ParserState :=
  { st with
    prompt_hide_active := !st.prompt_lines.isEmpty && !st.show_prompt
    prompt_i := 0
    hidden_prompt_lines := 0
    prompt_header_printed := false
    prompt_summary_printed := false }

/-- `CodexTranscriptParser._finish_prompt_hiding`: emit the one-time
suppression summary when lines were hidden, and disable hiding. -/
def finishPromptHiding (st : ParserState) : ParserState × List TranscriptLine :=
  if st.prompt_hide_active && decide (0 < st.hidden_prompt_lines) &&
      !st.prompt_summary_printed then
    ({ st with prompt_hide_active := false, prompt_summary_printed := true },
     [promptSuppressedLine st st.hidden_prompt_lines])
  else
    ({ st with prompt_hide_active := false }, [])

/-- `CodexTranscriptParser.feed`: consume one raw line, returning the new
parser state together with the display-ready lines (zero or more). -/
def feed (st : ParserState) (line : String) : ParserState × List TranscriptLine :=
  let clean := cleanLine line
  let marker := markerOf line
  if marker == "user" then
    (resetPromptState { st with role := "PROMPT" }, [])
  else if marker == "assistant" || marker == "codex" || marker == "final" then
    ({ (finishPromptHiding st).1 with role := "AI" }, (finishPromptHiding st).2)
  else if marker == "thinking" || marker == "analysis" then
    ({ (finishPromptHiding st).1 with role := "THINK" }, (finishPromptHiding st).2)
  else if marker == "tool" || marker == "exec" then
    ({ st with role := "TOOL" }, [])
  else if marker == "system" then
    ({ st with role := "SYS" }, [])
  else if st.role == "PROMPT" && st.prompt_hide_active then
    match st.prompt_lines[st.prompt_i]? with
    | none =>
      ({ (finishPromptHiding st).1 with role := "SYS" },
       (finishPromptHiding st).2 ++ [⟨"SYS", clean⟩])
    | some expected =>
      if clean == expected then
        ({ st with
            prompt_i := st.prompt_i + 1
            hidden_prompt_lines := st.hidden_prompt_lines + 1
            prompt_header_printed := true },
         (if !st.prompt_header_printed then [promptHeaderLine st] else []) ++
         (if decide (0 < st.prompt_progress_every) &&
              (st.hidden_prompt_lines + 1) % st.prompt_progress_every == 0 then
            [promptSuppressedLine st (st.hidden_prompt_lines + 1)]
          else []))
      else
        ({ (finishPromptHiding st).1 with role := "SYS" },
         (finishPromptHiding st).2 ++ [promptDivergedLine st, ⟨"SYS", clean⟩])
  else
    (st, [⟨st.role, clean⟩])

/-- Feed a whole sequence of raw lines through the parser, concatenating
the emitted lines. -/
def feedAll (st : ParserState) : List String → ParserState × List TranscriptLine
  | [] => (st, [])
  | l :: rest =>
    let (st₁, outs) := feed st l
    let (st₂, more) := feedAll st₁ rest
    (st₂, outs ++ more)

/-! ## loop.py

`run_loop` drives an external agent process and a terminal UI.  The UI
rendering calls do not influence the returned `LoopResult` and are dropped.
The agent and the other environment effects (file system, git, the human's
interactive selections) are supplied as explicit data: per iteration `k`
(1-based), `AgentSpec.outputs k` is the line sequence `agent.run` yields
and `AgentSpec.final_message k` the adapter's final message afterwards;
`LoopEnv` carries the preflight facts and the per-iteration git diff and
menu selections.
-/

/-- `COMPLETION_MARKER` from loop.py. -/
def COMPLETION_MARKER : String := "<promise>COMPLETE</promise>"

structure LoopResult where
  completed : Bool
  iterations : Nat
  exit_code : Nat
deriving DecidableEq, Repr

structure AgentSpec where
  is_codex : Bool
  outputs : Nat → List String
  final_message : Nat → Option String

structure RalphConfig where
  max_iterations : Nat
  interactive : Bool
  allowed_paths : List String
  ralph_branch : Option String
  ralph_branch_explicit : Bool
  ai_raw : Bool
  ai_show_prompt : Bool
  ai_prompt_progress_every : Int

structure LoopEnv where
  prompt_exists : Bool
  prompt_text : String
  prompt_src : String
  is_repo : Bool
  checkout_ok : String → Bool
  prd_exists : Bool
  prd_json : Option Json
  changed_files : Nat → List String
  can_prompt : Bool
  choice : Nat → Nat
  guard_choice : Nat → Nat

/-- Translation of `loop._determine_branch`: a branch configured on the
configuration wins outright (with its source label); otherwise the PRD file
is consulted, tolerating a missing or unloadable document silently. -/
def determine_branch (config : RalphConfig) (env : LoopEnv) :
    Option String × Option String :=
  match config.ralph_branch with
  | some b =>
    if config.ralph_branch_explicit then (some b, some "from RALPH_BRANCH")
    else (some b, some "default")
  | none =>
    if env.prd_exists then
      match env.prd_json with
      | some j =>
        match PRD.load_json j with
        | .ok prd =>
          if prd.branch_name != "" then (some prd.branch_name, some "from PRD")
          else (none, none)
        | .error _ => (none, none)
      | none => (none, none)
    else (none, none)

/-- The preflight branch step of `run_loop`: in a git repository, a truthy
resolved branch is checked out and a checkout failure aborts the run; an
empty-string branch and an unconfigured branch take no action. -/
def branch_aborts (config : RalphConfig) (env : LoopEnv) : Bool :=
  if env.is_repo then
    match (determine_branch config env).1 with
    | some b => if b != "" then !env.checkout_ok b else false
    | none => false
  else false

/-- The running `last_ai_line` accumulator of `run_loop`: the stripped text
of the last assistant-tagged parsed line that is non-empty after stripping. -/
def lastAi (outs : List TranscriptLine) : Option String :=
  outs.foldl
    (fun acc t =>
      if t.tag == "AI" then
        let c := pyStrip t.text
        if c != "" then some c else acc
      else acc)
    none

/-- The `completion_parser` constructed per iteration for a Codex agent
(`show_prompt=True`, `prompt_progress_every=0`), run over the iteration's
raw lines; returns the last non-empty assistant line. -/
def codexLastAi (env : LoopEnv) (lines : List String) : Option String :=
  let st := initParser (some env.prompt_text) env.prompt_src true 0
  lastAi (feedAll st lines).2

/-- The `final_message and COMPLETION_MARKER in final_message` test. -/
def finalMessageCompletes (agent : AgentSpec) (k : Nat) : Bool :=
  match agent.final_message k with
  | some fm => pyTruthy fm && pyIn COMPLETION_MARKER fm
  | none => false

/-- The completion detection of one `run_loop` iteration: the adapter's
final message first, else the last non-empty assistant transcript line for
Codex agents, else the last non-empty raw output line. -/
def completion_seen (agent : AgentSpec) (env : LoopEnv) (k : Nat) : Bool :=
  if finalMessageCompletes agent k then true
  else if agent.is_codex then
    codexLastAi env (agent.outputs k) == some COMPLETION_MARKER
  else
    let last_non_empty :=
      ((agent.outputs k).reverse.findSome?
        (fun l => if pyStrip l != "" then some (pyStrip l) else none)).getD ""
    last_non_empty == COMPLETION_MARKER

/-- The post-iteration guardrail step of `run_loop`: enforcement runs only
with a non-empty allow-list inside a git repository, with the current value
of the mutable `interactive` flag. -/
def guard_step (config : RalphConfig) (env : LoopEnv) (inter : Bool) (k : Nat) : Bool :=
  if !config.allowed_paths.isEmpty && env.is_repo then
    (enforce_allowed_paths config.allowed_paths inter env.is_repo
      (env.changed_files k) env.can_prompt (env.guard_choice k)).1
  else true

/-- The iteration loop of `run_loop`: `k` is the 1-based iteration number,
`inter` the current value of the mutable `interactive` flag and `left` the
remaining iteration budget (`run_loop` starts it at `max_iterations`). -/
def run_iters (config : RalphConfig) (agent : AgentSpec) (env : LoopEnv) :
    Nat → Bool → Nat → LoopResult
  | _, _, 0 => ⟨false, config.max_iterations, 1⟩
  | k, inter, left + 1 =>
    if completion_seen agent env k then ⟨true, k, 0⟩
    else if !guard_step config env inter k then ⟨false, k, 1⟩
    else if inter && env.can_prompt then
      if env.choice k == 1 then run_iters config agent env (k + 1) false left
      else if env.choice k == 2 then ⟨false, k, 0⟩
      else run_iters config agent env (k + 1) inter left
    else run_iters config agent env (k + 1) inter left

/-- Translation of `loop.run_loop`: validate the prompt file, resolve and
check out the branch, then run up to `max_iterations` iterations. -/
def run_loop (config : RalphConfig) (agent : AgentSpec) (env : LoopEnv) : LoopResult :=
  if !env.prompt_exists then ⟨false, 0, 1⟩
  else if branch_aborts config env then ⟨false, 0, 1⟩
  else run_iters config agent env 1 config.interactive config.max_iterations

/-! ## Helper lemmas about the iteration loop -/

/-- If no iteration's completion check succeeds, the guardrail step always
passes and the human never selects quit, the loop exhausts its budget. -/
theorem run_iters_exhaust (config : RalphConfig) (agent : AgentSpec) (env : LoopEnv)
    (hc : ∀ k, completion_seen agent env k = false)
    (hg : ∀ k b, guard_step config env b k = true)
    (hq : ∀ k, env.choice k ≠ 2) :
    ∀ left k inter, run_iters config agent env k inter left =
      ⟨false, config.max_iterations, 1⟩ := by
  intro left
  induction left with
  | zero => intro k inter; rfl
  | succ n ih =>
    intro k inter
    have h2 : (env.choice k == 2) = false := beq_eq_false_iff_ne.mpr (hq k)
    simp only [run_iters, hc k, hg k inter, h2, Bool.not_true, Bool.false_eq_true,
      if_false]
    by_cases hic : (inter && env.can_prompt) = true
    · simp only [hic, if_true]
      by_cases hc1 : (env.choice k == 1) = true
      · simp [hc1, ih]
      · simp [hc1, ih]
    · simp only [Bool.not_eq_true] at hic
      simp [hic, ih]

/-- Bounds invariant for the iteration loop: starting at iteration `k` with
`left` budget remaining where `k + left = max_iterations + 1`, the returned
iteration count never exceeds the configured maximum, and a completed
result carries exit code 0. -/
theorem run_iters_invariant (config : RalphConfig) (agent : AgentSpec) (env : LoopEnv) :
    ∀ left k inter, k + left = config.max_iterations + 1 →
      (run_iters config agent env k inter left).iterations ≤ config.max_iterations ∧
      ((run_iters config agent env k inter left).completed = true →
        (run_iters config agent env k inter left).exit_code = 0) := by
  intro left
  induction left with
  | zero =>
    intro k inter _
    exact ⟨Nat.le_refl _, fun h => by simp [run_iters] at h⟩
  | succ n ih =>
    intro k inter hk
    have hkle : k ≤ config.max_iterations := by omega
    simp only [run_iters]
    by_cases hcomp : completion_seen agent env k = true
    · simp [hcomp, hkle]
    · simp only [Bool.not_eq_true] at hcomp
      simp only [hcomp, Bool.false_eq_true, if_false]
      by_cases hgd : guard_step config env inter k = true
      · simp only [hgd, Bool.not_true, Bool.false_eq_true, if_false]
        by_cases hic : (inter && env.can_prompt) = true
        · simp only [hic, if_true]
          by_cases hc1 : (env.choice k == 1) = true
          · simp only [hc1, if_true]
            exact ih (k + 1) false (by omega)
          · simp only [hc1, Bool.false_eq_true, if_false]
            by_cases hc2 : (env.choice k == 2) = true
            · simp [hc2, hkle]
            · simp only [hc2, Bool.false_eq_true, if_false]
              exact ih (k + 1) inter (by omega)
        · simp only [Bool.not_eq_true] at hic
          simp only [hic, Bool.false_eq_true, if_false]
          exact ih (k + 1) inter (by omega)
      · simp only [Bool.not_eq_true] at hgd
        simp [hgd, hkle]

/-! ## Concrete instances used by witnesses and counterexamples -/

/-- A non-Codex agent that emits nothing and reports no final message. -/
def agentSilent : AgentSpec :=
  { is_codex := false, outputs := fun _ => [], final_message := fun _ => none }

/-- A benign environment: existing prompt file, not a git repository, no
interactive prompting. -/
def envPlain (prompt_text : String) : LoopEnv :=
  { prompt_exists := true, prompt_text := prompt_text, prompt_src := "prompt.md",
    is_repo := false, checkout_ok := fun _ => true, prd_exists := false,
    prd_json := none, changed_files := fun _ => [], can_prompt := false,
    choice := fun _ => 0, guard_choice := fun _ => 0 }

/-- A configuration with no allow-list, no branch, non-interactive. -/
def cfgPlain (n : Nat) : RalphConfig :=
  { max_iterations := n, interactive := false, allowed_paths := [],
    ralph_branch := none, ralph_branch_explicit := false, ai_raw := false,
    ai_show_prompt := false, ai_prompt_progress_every := 50 }

/-- A configuration that explicitly selects branch "feature". -/
def cfgBranchFeature : RalphConfig :=
  { max_iterations := 1, interactive := false, allowed_paths := [],
    ralph_branch := some "feature", ralph_branch_explicit := true,
    ai_raw := false, ai_show_prompt := false, ai_prompt_progress_every := 50 }

/-- A git-repository environment in which every branch checkout fails. -/
def envCheckoutFails : LoopEnv :=
  { envPlain "do the task" with is_repo := true, checkout_ok := fun _ => false }

/-! ## C3 -/

/-- C3, counterexample.  The claim quantifies over every configuration with
an existing prompt file and assumes only that no completion check succeeds,
the guardrail never fails and no interactive quit occurs; it overlooks the
preflight branch checkout.  With an explicitly configured branch inside a
git repository whose checkout fails, `run_loop` returns after 0 iterations
even though `max_iterations = 1`, refuting the claimed `iterations = N`. -/
theorem C3_counterexample :
    ¬ (∀ (config : RalphConfig) (agent : AgentSpec) (env : LoopEnv),
        env.prompt_exists = true →
        (∀ k, completion_seen agent env k = false) →
        (∀ k b, guard_step config env b k = true) →
        (∀ k, env.choice k ≠ 2) →
        run_loop config agent env =
          ⟨false, config.max_iterations, 1⟩) := by
  intro h
  have hres := h cfgBranchFeature agentSilent envCheckoutFails rfl
    (fun k => rfl) (fun k b => rfl) (fun k => by show (0 : Nat) ≠ 2; decide)
  have hrun : run_loop cfgBranchFeature agentSilent envCheckoutFails =
      ⟨false, 0, 1⟩ := rfl
  rw [hrun] at hres
  simp [cfgBranchFeature] at hres

/-- C3 (amended: additionally, the preflight branch checkout must not
fail).  For every configuration with `max_iterations = N` and an existing
prompt file, if the preflight branch step does not abort, no iteration's
completion check succeeds, the guardrail step always passes, and no
interactive quit occurs, then `run_loop` runs exactly `N` iterations and
returns `completed = false`, `iterations = N`, `exit_code = 1` (0
iterations when `N = 0`). -/
theorem C3_no_completion_exhausts_budget (config : RalphConfig)
    (agent : AgentSpec) (env : LoopEnv)
    (hp : env.prompt_exists = true)
    (hb : branch_aborts config env = false)
    (hc : ∀ k, completion_seen agent env k = false)
    (hg : ∀ k b, guard_step config env b k = true)
    (hq : ∀ k, env.choice k ≠ 2) :
    run_loop config agent env = ⟨false, config.max_iterations, 1⟩ := by
  simp only [run_loop, hp, hb, Bool.not_true, Bool.false_eq_true, if_false]
  exact run_iters_exhaust config agent env hc hg hq config.max_iterations 1
    config.interactive

/-- C3, witness: a 2-iteration run with a silent agent exhausts both
iterations and exits with code 1. -/
theorem C3_witness :
    run_loop (cfgPlain 2) agentSilent (envPlain "do the task") =
      ⟨false, 2, 1⟩ :=
  C3_no_completion_exhausts_budget (cfgPlain 2) agentSilent
    (envPlain "do the task") rfl rfl (fun k => rfl) (fun k b => rfl)
    (fun k => by show (0 : Nat) ≠ 2; decide)

/-! ## C7 -/

/-- C7: every invocation of `run_loop` returns exactly one `LoopResult`
(`run_loop` is a total function), the returned iteration count never
exceeds `config.max_iterations`, and `completed = true` implies
`exit_code = 0`. -/
theorem C7_result_invariants (config : RalphConfig) (agent : AgentSpec)
    (env : LoopEnv) :
    (run_loop config agent env).iterations ≤ config.max_iterations ∧
    ((run_loop config agent env).completed = true →
      (run_loop config agent env).exit_code = 0) := by
  unfold run_loop
  by_cases hp : env.prompt_exists = true
  · simp only [hp, Bool.not_true, Bool.false_eq_true, if_false]
    by_cases hb : branch_aborts config env = true
    · simp [hb]
    · simp only [Bool.not_eq_true] at hb
      simp only [hb, Bool.false_eq_true, if_false]
      exact run_iters_invariant config agent env config.max_iterations 1
        config.interactive (by omega)
  · simp only [Bool.not_eq_true] at hp
    simp [hp]

/-- C7, witness at a concrete invocation. -/
theorem C7_witness :
    (run_loop (cfgPlain 3) agentSilent (envPlain "p")).iterations ≤
      (cfgPlain 3).max_iterations ∧
    ((run_loop (cfgPlain 3) agentSilent (envPlain "p")).completed = true →
      (run_loop (cfgPlain 3) agentSilent (envPlain "p")).exit_code = 0) :=
  C7_result_invariants (cfgPlain 3) agentSilent (envPlain "p")

/-! ## C8 -/

/-- C8: when the configured prompt file does not exist, `run_loop` returns
`completed = false, iterations = 0, exit_code = 1`, and the agent is never
invoked: the result is the same whatever agent is supplied. -/
theorem C8_missing_prompt_file (config : RalphConfig) (env : LoopEnv)
    (hp : env.prompt_exists = false) :
    (∀ agent, run_loop config agent env = ⟨false, 0, 1⟩) ∧
    (∀ agent agent', run_loop config agent env = run_loop config agent' env) := by
  constructor
  · intro agent
    simp [run_loop, hp]
  · intro agent agent'
    simp [run_loop, hp]

/-- C8, witness: a concrete run with a missing prompt file. -/
theorem C8_witness :
    run_loop (cfgPlain 5) agentSilent
      { envPlain "p" with prompt_exists := false } = ⟨false, 0, 1⟩ :=
  (C8_missing_prompt_file (cfgPlain 5)
    { envPlain "p" with prompt_exists := false } rfl).1 agentSilent

/-! ## C1 -/

/-- C1: for the transcript-tagged (Codex) agent, an iteration whose
completion marker never appears as the last non-empty assistant-channel
line (e.g. it only occurs inside the echoed prompt) and whose adapter
final message does not contain the marker is never treated as complete:
under benign preflight, a passing guardrail and no interactive quit, the
loop exhausts all configured iterations and returns `completed = false`,
`exit_code = 1`. -/
theorem C1_echoed_marker_never_completes (config : RalphConfig)
    (agent : AgentSpec) (env : LoopEnv)
    (hcx : agent.is_codex = true)
    (hp : env.prompt_exists = true)
    (hb : branch_aborts config env = false)
    (hfm : ∀ k, finalMessageCompletes agent k = false)
    (hai : ∀ k, codexLastAi env (agent.outputs k) ≠ some COMPLETION_MARKER)
    (hg : ∀ k b, guard_step config env b k = true)
    (hq : ∀ k, env.choice k ≠ 2) :
    run_loop config agent env = ⟨false, config.max_iterations, 1⟩ := by
  have hc : ∀ k, completion_seen agent env k = false := by
    intro k
    have hbeq : (codexLastAi env (agent.outputs k) == some COMPLETION_MARKER) = false :=
      beq_eq_false_iff_ne.mpr (hai k)
    simp [completion_seen, hfm k, hcx, hbeq]
  simp only [run_loop, hp, hb, Bool.not_true, Bool.false_eq_true, if_false]
  exact run_iters_exhaust config agent env hc hg hq config.max_iterations 1
    config.interactive

/-- The prompt file content of the C1 scenario: it contains the literal
completion marker. -/
def promptWithMarker : String :=
  "Say done.\n<promise>COMPLETE</promise>"

/-- The C1 scenario agent: every iteration echoes the full prompt under a
"user" role marker, then replies "still working" under "assistant"; the
adapter's final message (the last non-empty output line) lacks the marker. -/
def agentEchoesPrompt : AgentSpec :=
  { is_codex := true
    outputs := fun _ =>
      ["user", "Say done.", "<promise>COMPLETE</promise>", "assistant",
       "still working"]
    final_message := fun _ => some "still working" }

/-- C1, witness: the scenario from the claim with `max_iterations = 2`
exhausts both iterations and returns `completed = false, exit_code = 1`. -/
theorem C1_witness :
    run_loop (cfgPlain 2) agentEchoesPrompt (envPlain promptWithMarker) =
      ⟨false, 2, 1⟩ :=
  C1_echoed_marker_never_completes (cfgPlain 2) agentEchoesPrompt
    (envPlain promptWithMarker) rfl rfl rfl (fun k => rfl)
    (fun k => by
      show codexLastAi (envPlain promptWithMarker)
        ["user", "Say done.", "<promise>COMPLETE</promise>", "assistant",
         "still working"] ≠ some COMPLETION_MARKER
      decide)
    (fun k b => rfl)
    (fun k => by show (0 : Nat) ≠ 2; decide)

/-! ## C2 -/

/-- If iteration `k` sees completion and every earlier iteration neither
completes nor stops the loop, the loop returns `completed = true` at
iteration `k` with exit code 0. -/
theorem run_iters_first_completion (config : RalphConfig) (agent : AgentSpec)
    (env : LoopEnv) (k : Nat)
    (hcomp : completion_seen agent env k = true)
    (hprev : ∀ j, 1 ≤ j → j < k → completion_seen agent env j = false)
    (hprevg : ∀ j b, 1 ≤ j → j < k → guard_step config env b j = true)
    (hprevq : ∀ j, 1 ≤ j → j < k → env.choice j ≠ 2) :
    ∀ left k' inter, 1 ≤ k' → k' ≤ k → k < k' + left →
      run_iters config agent env k' inter left = ⟨true, k, 0⟩ := by
  intro left
  induction left with
  | zero =>
    intro k' inter _ h1 h2
    omega
  | succ n ih =>
    intro k' inter hk'1 hk'le hk'lt
    by_cases hkk : k' = k
    · subst hkk
      simp [run_iters, hcomp]
    · have hlt : k' < k := by omega
      have h2 : (env.choice k' == 2) = false :=
        beq_eq_false_iff_ne.mpr (hprevq k' hk'1 hlt)
      simp only [run_iters, hprev k' hk'1 hlt, hprevg k' inter hk'1 hlt, h2,
        Bool.not_true, Bool.false_eq_true, if_false]
      by_cases hic : (inter && env.can_prompt) = true
      · simp only [hic, if_true]
        by_cases hc1 : (env.choice k' == 1) = true
        · simp only [hc1, if_true]
          exact ih (k' + 1) false (by omega) (by omega) (by omega)
        · simp only [hc1, Bool.false_eq_true, if_false]
          exact ih (k' + 1) inter (by omega) (by omega) (by omega)
      · simp only [Bool.not_eq_true] at hic
        simp only [hic, Bool.false_eq_true, if_false]
        exact ih (k' + 1) inter (by omega) (by omega) (by omega)

/-- C2: for the transcript-tagged (Codex) agent, if in iteration `k` the
last non-empty assistant-channel line of the whole iteration equals the
completion marker exactly — regardless of any system/metrics lines that
follow it — and every earlier iteration neither completed nor stopped the
loop, then the loop declares completion on iteration `k` and returns
`completed = true, iterations = k, exit_code = 0`. -/
theorem C2_last_assistant_marker_completes (config : RalphConfig)
    (agent : AgentSpec) (env : LoopEnv) (k : Nat)
    (hcx : agent.is_codex = true)
    (hp : env.prompt_exists = true)
    (hb : branch_aborts config env = false)
    (hk1 : 1 ≤ k) (hk2 : k ≤ config.max_iterations)
    (hai : codexLastAi env (agent.outputs k) = some COMPLETION_MARKER)
    (hprev : ∀ j, 1 ≤ j → j < k → completion_seen agent env j = false)
    (hprevg : ∀ j b, 1 ≤ j → j < k → guard_step config env b j = true)
    (hprevq : ∀ j, 1 ≤ j → j < k → env.choice j ≠ 2) :
    run_loop config agent env = ⟨true, k, 0⟩ := by
  have hcomp : completion_seen agent env k = true := by
    by_cases hfm : finalMessageCompletes agent k = true
    · simp [completion_seen, hfm]
    · simp only [Bool.not_eq_true] at hfm
      simp [completion_seen, hfm, hcx, hai]
  simp only [run_loop, hp, hb, Bool.not_true, Bool.false_eq_true, if_false]
  exact run_iters_first_completion config agent env k hcomp hprev hprevg hprevq
    config.max_iterations 1 config.interactive (by omega) hk1 (by omega)

/-- The C2 scenario agent: the assistant emits only the marker, then a
"system" section reports a token count; the adapter's final message is the
last non-empty output line, which lacks the marker. -/
def agentMarkerThenMetrics : AgentSpec :=
  { is_codex := true
    outputs := fun _ =>
      ["assistant", "<promise>COMPLETE</promise>", "system", "Tokens used: 123"]
    final_message := fun _ => some "Tokens used: 123" }

/-- C2, witness: the scenario from the claim completes on the first
iteration with `completed = true, exit_code = 0, iterations = 1`. -/
theorem C2_witness :
    run_loop (cfgPlain 3) agentMarkerThenMetrics (envPlain "Say done.") =
      ⟨true, 1, 0⟩ :=
  C2_last_assistant_marker_completes (cfgPlain 3) agentMarkerThenMetrics
    (envPlain "Say done.") 1 rfl rfl rfl (by decide) (by decide) (by decide)
    (fun j hj1 hj2 => absurd (Nat.lt_of_le_of_lt hj1 hj2) (by decide))
    (fun j b hj1 hj2 => absurd (Nat.lt_of_le_of_lt hj1 hj2) (by decide))
    (fun j hj1 hj2 => absurd (Nat.lt_of_le_of_lt hj1 hj2) (by decide))

/-! ## C5 -/

/-- C5: `path_is_allowed p A` holds exactly when some entry of `A` either
ends in `/` and is a prefix of `p` (or equals `p ++ "/"`), or, without a
trailing `/`, equals `p` exactly; the concrete matches of the spec hold;
and an empty allow-list makes every path disallowed at the matching
primitive while `check_violations` and the enforcement layer treat it as
"enforcement disabled" (no violations, immediate pass). -/
theorem C5_path_allow_semantics :
    (∀ p A, path_is_allowed p A = true ↔
      ∃ a, a ∈ A ∧
        ((pyEndswith a "/" = true ∧ (pyStartswith p a = true ∨ p ++ "/" = a)) ∨
         (pyEndswith a "/" = false ∧ p = a))) ∧
    path_is_allowed "foo/bar/baz.txt" ["foo/"] = true ∧
    path_is_allowed "foo" ["foo/"] = true ∧
    path_is_allowed "foo/bar.txt" ["foo/bar.txt"] = true ∧
    path_is_allowed "other/file.txt" ["foo/", "foo/bar.txt"] = false ∧
    (∀ p, path_is_allowed p [] = false) ∧
    (∀ changed, check_violations changed [] = []) ∧
    (∀ inter is_repo changed can_prompt choice,
      enforce_allowed_paths [] inter is_repo changed can_prompt choice =
        (true, [])) := by
  refine ⟨?_, by decide, by decide, by decide, by decide, ?_, ?_, ?_⟩
  · intro p A
    rw [path_is_allowed, List.any_eq_true]
    apply exists_congr
    intro a
    apply and_congr_right
    intro _
    by_cases h : pyEndswith a "/" = true
    · simp [h, beq_iff_eq]
    · simp only [Bool.not_eq_true] at h
      simp [h, beq_iff_eq]
  · intro p; rfl
  · intro changed; rfl
  · intro inter is_repo changed can_prompt choice; rfl

/-- C5, witness: the directory-prefix entry matches a nested file. -/
theorem C5_witness : path_is_allowed "foo/bar/baz.txt" ["foo/"] = true :=
  C5_path_allow_semantics.2.1

/-! ## C6 -/

/-- C6: branch resolution precedence.  A branch configured on the
configuration is used as-is and the PRD is never consulted (the result is
independent of the environment); a configured empty-string branch skips
checkout (the preflight never aborts on it, whatever `checkout_ok` says)
yet is distinguished from "not configured"; only an unconfigured branch
consults the PRD, adopting its non-empty branch name, and a missing or
unloadable PRD silently yields no branch action. -/
theorem C6_branch_precedence (config : RalphConfig) (env env' : LoopEnv)
    (b : String) :
    (config.ralph_branch = some b →
      (determine_branch config env).1 = some b ∧
      determine_branch config env = determine_branch config env') ∧
    (config.ralph_branch = some "" → branch_aborts config env = false) ∧
    (config.ralph_branch = none → env.prd_exists = true →
      ∀ j prd, env.prd_json = some j → PRD.load_json j = .ok prd →
        prd.branch_name ≠ "" →
        determine_branch config env = (some prd.branch_name, some "from PRD")) ∧
    (config.ralph_branch = none →
      (env.prd_exists = false ∨ env.prd_json = none ∨
       (∃ j e, env.prd_json = some j ∧ PRD.load_json j = .error e)) →
      determine_branch config env = (none, none)) := by
  refine ⟨?_, ?_, ?_, ?_⟩
  · intro h
    cases hx : config.ralph_branch_explicit <;> simp [determine_branch, h, hx]
  · intro h
    cases hr : env.is_repo
    · simp [branch_aborts, hr]
    · cases hx : config.ralph_branch_explicit <;>
        simp [branch_aborts, determine_branch, h, hx, hr]
  · intro h hpe j prd hj hload hbn
    simp [determine_branch, h, hpe, hj, hload, bne_iff_ne, hbn]
  · intro h hcase
    rcases hcase with hpe | hjn | ⟨j, e, hj, hload⟩
    · simp [determine_branch, h, hpe]
    · cases hpe : env.prd_exists <;> simp [determine_branch, h, hpe, hjn]
    · cases hpe : env.prd_exists <;> simp [determine_branch, h, hpe, hj, hload]

/-- C6, witness: an explicitly configured branch is adopted and the result
ignores the environment (and with it the PRD). -/
theorem C6_witness :
    (determine_branch cfgBranchFeature (envPlain "p")).1 = some "feature" ∧
    determine_branch cfgBranchFeature (envPlain "p") =
      determine_branch cfgBranchFeature envCheckoutFails :=
  (C6_branch_precedence cfgBranchFeature (envPlain "p") envCheckoutFails
    "feature").1 rfl

/-! ## C9 -/

theorem extract_str_map (l : List String) :
    l.map ((fun c => match c with | Json.str s => s | _ => "") ∘ Json.str) = l := by
  induction l with
  | nil => rfl
  | cons x xs ih => simp only [List.map_cons, ih, Function.comp]

theorem all_isStr_map (l : List String) :
    (l.map Json.str).all Json.isStr = true := by
  induction l with
  | nil => rfl
  | cons x xs ih => simp [ih, Json.isStr]

theorem validateStory_storyToJson (i : Nat) (s : UserStory) :
    validateStory i (storyToJson s) = [] := by
  have hk : keySetEq
      ["id", "title", "acceptanceCriteria", "priority", "passes", "notes"]
      ["id", "title", "acceptanceCriteria", "priority", "passes", "notes"] =
      true := by decide
  simp [validateStory, storyToJson, jlookup, hk, Json.isStr, Json.isInt,
    Json.isBool, all_isStr_map s.acceptance_criteria]

theorem validateStories_map (l : List UserStory) :
    ∀ i, validateStories i (l.map storyToJson) = [] := by
  induction l with
  | nil => intro i; rfl
  | cons s rest ih =>
    intro i
    simp [validateStories, validateStory_storyToJson, ih]

theorem storyOfJson_storyToJson (s : UserStory) :
    storyOfJson (storyToJson s) = s := by
  cases s with
  | mk i t ac pr pa no =>
    simp [storyOfJson, storyToJson, jlookup, extract_str_map]

theorem map_story_roundtrip (l : List UserStory) :
    l.map (storyOfJson ∘ storyToJson) = l := by
  induction l with
  | nil => rfl
  | cons s rest ih =>
    simp only [List.map_cons, ih, Function.comp_apply, storyOfJson_storyToJson]

/-- C9: saving a schema-valid PRD value (non-empty branch name and typed
story fields, which the `PRD` structure carries by construction) and
reloading it yields a PRD with an identical branch name and an identical
ordered list of user stories. -/
theorem C9_save_load_roundtrip (p : PRD) (hb : p.branch_name ≠ "") :
    PRD.load_json (PRD.save_json p) = .ok p := by
  cases p with
  | mk bn stories =>
    have hbeq : (bn == "") = false := beq_eq_false_iff_ne.mpr hb
    have hk : keySetEq ["branchName", "userStories"]
        ["branchName", "userStories"] = true := by decide
    simp [PRD.load_json, PRD.save_json, PRD.validate_schema, jlookup, hk,
      hbeq, validateStories_map, map_story_roundtrip]

/-- A sample PRD document value. -/
def prdSample : PRD :=
  { branch_name := "main"
    user_stories :=
      [{ id := "S1", title := "First story",
         acceptance_criteria := ["does the thing"], priority := 1,
         passes := false, notes := "todo" }] }

/-- C9, witness: the round-trip on a concrete PRD. -/
theorem C9_witness :
    PRD.load_json (PRD.save_json prdSample) = .ok prdSample :=
  C9_save_load_roundtrip prdSample (by decide)

/-! ## C10 -/

/-- The spec's "key set is exactly `es`" condition on a JSON object. -/
def KeysExactly (kvs : List (String × Json)) (es : List String) : Prop :=
  ∀ k, k ∈ kvs.map Prod.fst ↔ k ∈ es

/-- Modelled from the spec's schema description: a story object with
exactly the six story keys and the declared field types, except that the
integer check on `priority` also accepts booleans, since Python's `bool`
is a subclass of `int`. -/
def StoryOK (story : Json) : Prop :=
  ∃ kvs, story = Json.obj kvs ∧
    KeysExactly kvs ["id", "title", "acceptanceCriteria", "priority", "passes", "notes"] ∧
    (∃ s, jlookup "id" kvs = some (Json.str s)) ∧
    (∃ s, jlookup "title" kvs = some (Json.str s)) ∧
    (∃ cs, jlookup "acceptanceCriteria" kvs = some (Json.arr cs) ∧
      ∀ c ∈ cs, ∃ s, c = Json.str s) ∧
    ((∃ n, jlookup "priority" kvs = some (Json.int n)) ∨
     (∃ b, jlookup "priority" kvs = some (Json.bool b))) ∧
    (∃ b, jlookup "passes" kvs = some (Json.bool b)) ∧
    (∃ s, jlookup "notes" kvs = some (Json.str s))

/-- Modelled from the spec's schema description: a document with exactly
the keys `branchName` (a non-empty string) and `userStories` (an array of
well-typed stories). -/
def SchemaOK (data : Json) : Prop :=
  ∃ kvs, data = Json.obj kvs ∧
    KeysExactly kvs ["branchName", "userStories"] ∧
    (∃ s, jlookup "branchName" kvs = some (Json.str s) ∧ s ≠ "") ∧
    (∃ ss, jlookup "userStories" kvs = some (Json.arr ss) ∧ ∀ st ∈ ss, StoryOK st)

theorem keySetEq_iff (ks es : List String) :
    keySetEq ks es = true ↔ ∀ k, k ∈ ks ↔ k ∈ es := by
  simp only [keySetEq, Bool.and_eq_true, List.all_eq_true]
  constructor
  · rintro ⟨h1, h2⟩ k
    constructor
    · intro hk
      have := h1 k hk
      rwa [List.elem_iff] at this
    · intro hk
      have := h2 k hk
      rwa [List.elem_iff] at this
  · intro h
    constructor
    · intro k hk
      rw [List.elem_iff]
      exact (h k).mp hk
    · intro k hk
      rw [List.elem_iff]
      exact (h k).mpr hk

theorem keySetEq_keysExactly (kvs : List (String × Json)) (es : List String) :
    keySetEq (kvs.map Prod.fst) es = true ↔ KeysExactly kvs es :=
  keySetEq_iff (kvs.map Prod.fst) es

theorem ite_err_nil_iff (b : Bool) (e : String) :
    ((if !b then [e] else []) = []) ↔ b = true := by
  cases b <;> simp

theorem option_any_isStr_iff (o : Option Json) :
    o.any Json.isStr = true ↔ ∃ s, o = some (Json.str s) := by
  cases o with
  | none => simp [Option.any]
  | some j => cases j <;> simp [Option.any, Json.isStr]

theorem option_any_isInt_iff (o : Option Json) :
    o.any Json.isInt = true ↔
      (∃ n, o = some (Json.int n)) ∨ (∃ b, o = some (Json.bool b)) := by
  cases o with
  | none => simp [Option.any]
  | some j => cases j <;> simp [Option.any, Json.isInt]

theorem option_any_isBool_iff (o : Option Json) :
    o.any Json.isBool = true ↔ ∃ b, o = some (Json.bool b) := by
  cases o with
  | none => simp [Option.any]
  | some j => cases j <;> simp [Option.any, Json.isBool]

theorem isStr_eq_true_iff (c : Json) :
    c.isStr = true ↔ ∃ s, c = Json.str s := by
  cases c <;> simp [Json.isStr]

theorem validateStory_eq_nil_iff (i : Nat) (st : Json) :
    validateStory i st = [] ↔ StoryOK st := by
  cases st with
  | str s => simp [validateStory, StoryOK]
  | int n => simp [validateStory, StoryOK]
  | bool b => simp [validateStory, StoryOK]
  | null => simp [validateStory, StoryOK]
  | arr xs => simp [validateStory, StoryOK]
  | obj kvs =>
    by_cases hk : keySetEq (kvs.map Prod.fst)
        ["id", "title", "acceptanceCriteria", "priority", "passes", "notes"] = true
    · have hkp : KeysExactly kvs
          ["id", "title", "acceptanceCriteria", "priority", "passes", "notes"] :=
        (keySetEq_keysExactly _ _).mp hk
      rcases hac : jlookup "acceptanceCriteria" kvs with _ | j
      · simp [validateStory, hk, hac, StoryOK]
      · cases j <;>
          simp [validateStory, hk, hac, StoryOK, hkp, ite_err_nil_iff,
            option_any_isStr_iff, option_any_isInt_iff, option_any_isBool_iff,
            isStr_eq_true_iff]
    · simp only [Bool.not_eq_true] at hk
      constructor
      · intro h
        exfalso
        simp [validateStory, hk] at h
      · rintro ⟨kvs₁, heq, hmem, _⟩
        exfalso
        cases heq
        rw [← keySetEq_keysExactly] at hmem
        rw [hmem] at hk
        cases hk

theorem validateStories_eq_nil_iff (ss : List Json) :
    ∀ i, (validateStories i ss = [] ↔ ∀ st ∈ ss, StoryOK st) := by
  induction ss with
  | nil => intro i; simp [validateStories]
  | cons s rest ih =>
    intro i
    simp [validateStories, validateStory_eq_nil_iff, ih (i + 1)]

theorem validate_schema_eq_nil_iff (data : Json) :
    PRD.validate_schema data = [] ↔ SchemaOK data := by
  cases data with
  | str s => simp [PRD.validate_schema, SchemaOK]
  | int n => simp [PRD.validate_schema, SchemaOK]
  | bool b => simp [PRD.validate_schema, SchemaOK]
  | null => simp [PRD.validate_schema, SchemaOK]
  | arr xs => simp [PRD.validate_schema, SchemaOK]
  | obj kvs =>
    by_cases hk : keySetEq (kvs.map Prod.fst) ["branchName", "userStories"] = true
    · have hkp : KeysExactly kvs ["branchName", "userStories"] :=
        (keySetEq_keysExactly _ _).mp hk
      rcases hbn : jlookup "branchName" kvs with _ | jb
      · rcases hus : jlookup "userStories" kvs with _ | ju
        · simp [PRD.validate_schema, hk, hbn, hus, SchemaOK]
        · cases ju <;> simp [PRD.validate_schema, hk, hbn, hus, SchemaOK]
      · rcases hus : jlookup "userStories" kvs with _ | ju
        · cases jb <;> simp [PRD.validate_schema, hk, hbn, hus, SchemaOK]
        · cases jb <;> cases ju <;>
            simp [PRD.validate_schema, hk, hbn, hus, SchemaOK, hkp,
              validateStories_eq_nil_iff, beq_iff_eq]
    · simp only [Bool.not_eq_true] at hk
      constructor
      · intro h
        exfalso
        simp [PRD.validate_schema, hk] at h
      · rintro ⟨kvs₁, heq, hmem, _⟩
        exfalso
        cases heq
        rw [← keySetEq_keysExactly] at hmem
        rw [hmem] at hk
        cases hk

/-- C10 (amended: the integer check on a story's `priority` also accepts
booleans, since Python's `bool` is a subclass of `int`).  `PRD.load`
yields a PRD exactly when the top-level key set is exactly
`branchName`/`userStories` with a non-empty string branch name, and every
story's key set is exactly the six story keys with string id/title/notes,
an all-strings acceptance-criteria array, an integer-or-boolean priority,
and a boolean passes; any extra key, missing key, or otherwise wrong
field type makes `PRD.load` raise instead. -/
theorem C10_schema_acceptance (data : Json) :
    (∃ p, PRD.load_json data = Except.ok p) ↔ SchemaOK data := by
  rw [← validate_schema_eq_nil_iff]
  constructor
  · rintro ⟨p, hp⟩
    by_contra hne
    have hfalse : (PRD.validate_schema data).isEmpty = false := by
      rcases hlst : PRD.validate_schema data with _ | ⟨x, xs⟩
      · exact absurd hlst hne
      · rfl
    simp only [PRD.load_json, hfalse, Bool.not_false, if_true] at hp
    exact Except.noConfusion hp
  · intro h
    cases data with
    | obj kvs =>
      refine ⟨{ branch_name :=
                  match jlookup "branchName" kvs with
                  | some (Json.str s) => s
                  | _ => ""
                user_stories :=
                  match jlookup "userStories" kvs with
                  | some (Json.arr ss) => ss.map storyOfJson
                  | _ => [] }, ?_⟩
      simp only [PRD.load_json, h, List.isEmpty_nil, Bool.not_true,
        Bool.false_eq_true, if_false]
    | str s => simp [PRD.validate_schema] at h
    | int n => simp [PRD.validate_schema] at h
    | bool b => simp [PRD.validate_schema] at h
    | null => simp [PRD.validate_schema] at h
    | arr xs => simp [PRD.validate_schema] at h

/-- The story object of the counterexample document: its `priority` field
holds the JSON boolean `true`, not an integer. -/
def storyKvsBoolPriority : List (String × Json) :=
  [("id", Json.str "S1"), ("title", Json.str "T"),
   ("acceptanceCriteria", Json.arr [Json.str "c1"]),
   ("priority", Json.bool true), ("passes", Json.bool false),
   ("notes", Json.str "")]

/-- A PRD document whose story `priority` is a JSON boolean. -/
def prdDocBoolPriority : Json :=
  Json.obj [("branchName", Json.str "main"),
            ("userStories", Json.arr [Json.obj storyKvsBoolPriority])]

/-- The PRD value that `PRD.load` produces from `prdDocBoolPriority`
(Python keeps the boolean `True`, numerically equal to 1). -/
def prdLoadedBoolPriority : PRD :=
  { branch_name := "main"
    user_stories :=
      [{ id := "S1", title := "T", acceptance_criteria := ["c1"],
         priority := 1, passes := false, notes := "" }] }

/-- C10, counterexample.  The claim states that any wrong field type makes
`PRD.load` raise, so a document whose story `priority` is a boolean (not
an integer) should never yield a PRD value.  But CPython's
`isinstance(True, int)` holds (`bool` subclasses `int`), so
`validate_schema` accepts the boolean and `PRD.load` returns a PRD. -/
theorem C10_counterexample :
    jlookup "priority" storyKvsBoolPriority = some (Json.bool true) ∧
    PRD.load_json prdDocBoolPriority = Except.ok prdLoadedBoolPriority := by
  constructor
  · rfl
  · rfl

/-- C10, witness: the saved sample document is accepted, so it satisfies
the schema characterization. -/
theorem C10_witness : SchemaOK (PRD.save_json prdSample) :=
  (C10_schema_acceptance (PRD.save_json prdSample)).mp ⟨prdSample, by rfl⟩

/-! ## C4 -/

/-- Whether a raw line is one of the transcript role markers (a bare role
word, case-insensitive, optional trailing colon), i.e. a state transition
rather than content. -/
def isRoleMarker (line : String) : Bool :=
  markerOf line == "user" || markerOf line == "assistant" ||
  markerOf line == "codex" || markerOf line == "final" ||
  markerOf line == "thinking" || markerOf line == "analysis" ||
  markerOf line == "tool" || markerOf line == "exec" ||
  markerOf line == "system"

theorem finish_hide_off (st : ParserState) :
    (finishPromptHiding st).1.prompt_hide_active = false := by
  unfold finishPromptHiding
  split <;> rfl

theorem feed_prompt_match (st : ParserState) (l e : String)
    (h1 : st.role = "PROMPT") (h2 : st.prompt_hide_active = true)
    (hm : isRoleMarker l = false)
    (h4 : st.prompt_lines[st.prompt_i]? = some e)
    (h5 : cleanLine l = e) :
    feed st l =
      ({ st with
          prompt_i := st.prompt_i + 1
          hidden_prompt_lines := st.hidden_prompt_lines + 1
          prompt_header_printed := true },
       (if !st.prompt_header_printed then [promptHeaderLine st] else []) ++
       (if decide (0 < st.prompt_progress_every) &&
            (st.hidden_prompt_lines + 1) % st.prompt_progress_every == 0 then
          [promptSuppressedLine st (st.hidden_prompt_lines + 1)]
        else [])) := by
  simp only [isRoleMarker, Bool.or_eq_false_iff] at hm
  obtain ⟨⟨⟨⟨⟨⟨⟨⟨hu, ha⟩, hc⟩, hf⟩, ht⟩, han⟩, hto⟩, hex⟩, hsy⟩ := hm
  simp only [feed, hu, ha, hc, hf, ht, han, hto, hex, hsy, h1, h2, h4, h5,
    Bool.or_self, Bool.or_eq_true, Bool.false_eq_true, if_false, or_self,
    beq_self_eq_true, Bool.and_self, if_true]

theorem feed_prompt_diverge (st : ParserState) (l e : String)
    (h1 : st.role = "PROMPT") (h2 : st.prompt_hide_active = true)
    (hm : isRoleMarker l = false)
    (h4 : st.prompt_lines[st.prompt_i]? = some e)
    (h5 : cleanLine l ≠ e) :
    feed st l =
      ({ st with
          role := "SYS"
          prompt_hide_active := false
          prompt_summary_printed :=
            st.prompt_summary_printed || decide (0 < st.hidden_prompt_lines) },
       (if 0 < st.hidden_prompt_lines ∧ st.prompt_summary_printed = false then
          [promptSuppressedLine st st.hidden_prompt_lines]
        else []) ++ [promptDivergedLine st, ⟨"SYS", cleanLine l⟩]) := by
  simp only [isRoleMarker, Bool.or_eq_false_iff] at hm
  obtain ⟨⟨⟨⟨⟨⟨⟨⟨hu, ha⟩, hc⟩, hf⟩, ht⟩, han⟩, hto⟩, hex⟩, hsy⟩ := hm
  have h5b : (cleanLine l == e) = false := beq_eq_false_iff_ne.mpr h5
  simp only [feed, hu, ha, hc, hf, ht, han, hto, hex, hsy, h1, h2, h4, h5b,
    Bool.or_self, Bool.or_eq_true, Bool.false_eq_true, if_false, or_self,
    beq_self_eq_true, Bool.and_self, if_true]
  by_cases hh : 0 < st.hidden_prompt_lines
  · by_cases hs : st.prompt_summary_printed = true
    · simp [finishPromptHiding, h2, hh, hs]
    · simp only [Bool.not_eq_true] at hs
      simp [finishPromptHiding, h2, hh, hs]
  · have hh0 : st.hidden_prompt_lines = 0 := by omega
    simp [finishPromptHiding, h2, hh0]

/-- C4: prompt-echo suppression of `CodexTranscriptParser.feed`, for a
parser in the user section with hiding active (as constructed from an
existing, non-empty prompt file with `show_prompt = False`).  First part:
an incoming content line that equals the next unmatched prompt line is
suppressed — no content line is emitted, only the one-time
"[prompt hidden: src]" header (exactly when it was not yet printed) and,
with a positive progress interval, a periodic "N lines suppressed" marker
each time the hidden count reaches a multiple of the interval; hiding
stays active.  Second part: the first content line that differs from the
expected prompt line disables suppression immediately, and the diverged
line is surfaced tagged as system output, preceded by a disclosure note
and — when at least one line had been hidden and no summary was printed
yet — by a one-time suppression summary.  Third part: once inactive,
suppression stays disabled for every line other than a new "user" role
marker (permanently for that section). -/
theorem C4_prompt_echo_suppression (st : ParserState) (l e : String) :
    (st.role = "PROMPT" → st.prompt_hide_active = true →
      isRoleMarker l = false →
      st.prompt_lines[st.prompt_i]? = some e → cleanLine l = e →
      feed st l =
        ({ st with
            prompt_i := st.prompt_i + 1
            hidden_prompt_lines := st.hidden_prompt_lines + 1
            prompt_header_printed := true },
         (if !st.prompt_header_printed then [promptHeaderLine st] else []) ++
         (if decide (0 < st.prompt_progress_every) &&
              (st.hidden_prompt_lines + 1) % st.prompt_progress_every == 0 then
            [promptSuppressedLine st (st.hidden_prompt_lines + 1)]
          else [])) ∧
      (feed st l).1.prompt_hide_active = true ∧
      (feed st l).1.role = "PROMPT" ∧
      ∀ t ∈ (feed st l).2, t.tag = "PROMPT" ∧
        (t = promptHeaderLine st ∨
         t = promptSuppressedLine st (st.hidden_prompt_lines + 1))) ∧
    (st.role = "PROMPT" → st.prompt_hide_active = true →
      isRoleMarker l = false →
      st.prompt_lines[st.prompt_i]? = some e → cleanLine l ≠ e →
      feed st l =
        ({ st with
            role := "SYS"
            prompt_hide_active := false
            prompt_summary_printed :=
              st.prompt_summary_printed || decide (0 < st.hidden_prompt_lines) },
         (if 0 < st.hidden_prompt_lines ∧ st.prompt_summary_printed = false then
            [promptSuppressedLine st st.hidden_prompt_lines]
          else []) ++ [promptDivergedLine st, ⟨"SYS", cleanLine l⟩])) ∧
    (st.prompt_hide_active = false → markerOf l ≠ "user" →
      (feed st l).1.prompt_hide_active = false) := by
  refine ⟨?_, ?_, ?_⟩
  · intro h1 h2 hm h4 h5
    have heq := feed_prompt_match st l e h1 h2 hm h4 h5
    refine ⟨heq, ?_, ?_, ?_⟩
    · rw [heq]; exact h2
    · rw [heq]; exact h1
    · rw [heq]
      intro t ht
      by_cases hhp : st.prompt_header_printed = true
      · by_cases hpc : (decide (0 < st.prompt_progress_every) &&
            (st.hidden_prompt_lines + 1) % st.prompt_progress_every == 0) = true
        · simp [hhp, hpc] at ht
          subst ht
          exact ⟨rfl, Or.inr rfl⟩
        · simp only [Bool.not_eq_true] at hpc
          simp [hhp, hpc] at ht
      · simp only [Bool.not_eq_true] at hhp
        by_cases hpc : (decide (0 < st.prompt_progress_every) &&
            (st.hidden_prompt_lines + 1) % st.prompt_progress_every == 0) = true
        · simp [hhp, hpc] at ht
          rcases ht with ht | ht
          · subst ht; exact ⟨rfl, Or.inl rfl⟩
          · subst ht; exact ⟨rfl, Or.inr rfl⟩
        · simp only [Bool.not_eq_true] at hpc
          simp [hhp, hpc] at ht
          subst ht
          exact ⟨rfl, Or.inl rfl⟩
  · intro h1 h2 hm h4 h5
    exact feed_prompt_diverge st l e h1 h2 hm h4 h5
  · intro hoff hmu
    have hub : (markerOf l == "user") = false := beq_eq_false_iff_ne.mpr hmu
    simp only [feed, hub, Bool.false_eq_true, if_false]
    by_cases hA : (markerOf l == "assistant" || markerOf l == "codex" ||
        markerOf l == "final") = true
    · simp [hA, finish_hide_off]
    · simp only [Bool.not_eq_true] at hA
      simp only [hA, Bool.false_eq_true, if_false]
      by_cases hT : (markerOf l == "thinking" || markerOf l == "analysis") = true
      · simp [hT, finish_hide_off]
      · simp only [Bool.not_eq_true] at hT
        simp only [hT, Bool.false_eq_true, if_false]
        by_cases hTo : (markerOf l == "tool" || markerOf l == "exec") = true
        · simp [hTo, hoff]
        · simp only [Bool.not_eq_true] at hTo
          simp only [hTo, Bool.false_eq_true, if_false]
          by_cases hSy : (markerOf l == "system") = true
          · simp [hSy, hoff]
          · simp only [Bool.not_eq_true] at hSy
            simp only [hSy, Bool.false_eq_true, if_false, hoff, Bool.and_false,
              if_false]

/-- The parser state right after the "user" role marker, for a prompt file
with lines "alpha", "beta", `show_prompt = False` and a progress interval
of 2. -/
def stepState : ParserState :=
  { role := "PROMPT", show_prompt := false, prompt_progress_every := 2,
    prompt_lines := ["alpha", "beta"], prompt_src := "prompt.md",
    prompt_hide_active := true, prompt_i := 0, hidden_prompt_lines := 0,
    prompt_header_printed := false, prompt_summary_printed := false }

/-- C4, witness: feeding the matching first prompt line suppresses it,
emitting only the one-time header; feeding a diverging line instead
surfaces it as system output behind a disclosure note. -/
theorem C4_witness :
    feed stepState "alpha" =
      ({ stepState with
          prompt_i := 1
          hidden_prompt_lines := 1
          prompt_header_printed := true },
       [promptHeaderLine stepState]) ∧
    feed stepState "DIVERGE" =
      ({ stepState with
          role := "SYS"
          prompt_hide_active := false },
       [promptDivergedLine stepState, ⟨"SYS", "DIVERGE"⟩]) := by
  constructor
  · have h := (C4_prompt_echo_suppression stepState "alpha" "alpha").1 rfl rfl
      (by decide) (by decide) rfl
    rw [h.1]
    decide
  · have h := (C4_prompt_echo_suppression stepState "DIVERGE" "alpha").2.1 rfl rfl
      (by decide) (by decide) (by decide)
    rw [h]
    decide
